import Mathlib

/-!
# CollabFlow backend — shallow embedding and verification

A shallow embedding of the CollabFlow backend route handlers
(`src/backend/routes/{projects,boards,tasks,comments,notifications}.js`
and the Socket.IO fan-out in `src/backend/server.js`), together with
theorems settling the specification claims about authorization,
notification emission, partial-update semantics, ordering of list
results, and the realtime broadcast.

Conventions of the embedding:
* MongoDB ObjectIds are `String`s; `toString()` comparisons in the JS
  source become `String` equality.
* Request-body fields are `JVal`: `undef` models an absent key,
  `nullv` an explicit JSON `null`, `str s` a string value.  JS
  truthiness (`if (x)`, `x || y`) and the `x !== undefined` test are
  embedded explicitly.
* `Model.findById` becomes a `find?` over a `Store` of records;
  `.populate(ref)` becomes a second lookup.  Accessing a property of a
  failed populate (JS `null`) throws, which each route's `catch` maps
  to a 500 — embedded as `HRes.serverError`.
* Handlers are pure: they take the caller id, the store and the request
  and return the HTTP outcome plus any documents they would save.
-/

namespace CollabFlow

/-- A JSON request-body field value: absent key, explicit `null`, or a
string (ids, titles, dates and enums are all strings on the wire). -/
inductive JVal where
  | undef
  | nullv
  | str (s : String)
deriving DecidableEq, Repr

/-- JS truthiness of a `JVal`: `undefined` and `null` are falsy, a
string is truthy iff nonempty. -/
def JVal.truthy : JVal → Bool
  | .undef => false
  | .nullv => false
  | .str s => s != ""

/-- JS `String(x)` / `x.toString()`.  The routes only call it on values
already known truthy, i.e. on nonempty strings. -/
def JVal.jsToString : JVal → String
  | .undef => "undefined"
  | .nullv => "null"
  | .str s => s

/-- JS `a || b`: `a` when truthy, else `b`. -/
def jsOr (a b : JVal) : JVal := if a.truthy then a else b

/-- JS `a !== undefined ? a : b` (the patch idiom for fields where
explicit `null`/empty must overwrite). -/
def setIfDefined (a b : JVal) : JVal := if a == JVal.undef then b else a

/-- A project member record, as created by `POST /api/projects`
(`members: [{ user: req.userId, role: 'owner' }]`) and described by the
data model: a list of `{user ref, role}` records. -/
structure Member where
  user : String
  role : String
deriving DecidableEq, Repr

/-- A JS runtime value as compared by `Array.prototype.includes`
(SameValueZero / `===`): an id string or a member subdocument.  Values
of different shapes are never equal. -/
inductive JsRuntimeVal where
  | jstr (s : String)
  | jmember (m : Member)
deriving DecidableEq, Repr

/-- Embeds `project.members.includes(req.user.id)`: the JS `includes`
compares the caller's id string against each `{user, role}` member
subdocument with `===`. -/
def membersIncludesCaller (ms : List Member) (callerId : String) : Bool :=
  (ms.map JsRuntimeVal.jmember).contains (JsRuntimeVal.jstr callerId)

structure Project where
  pid : String
  name : JVal
  description : JVal
  owner : String
  members : List Member
  status : JVal
  tags : JVal
  createdAt : Nat
deriving DecidableEq, Repr

structure Board where
  bid : String
  name : JVal
  description : JVal
  project : String
  createdBy : String
  createdAt : Nat
deriving DecidableEq, Repr

structure Task where
  tid : String
  title : JVal
  description : JVal
  priority : JVal
  status : JVal
  dueDate : JVal
  board : JVal
  project : String
  createdBy : String
  assignedTo : JVal
  createdAt : Nat
deriving DecidableEq, Repr

structure Comment where
  cid : String
  content : JVal
  task : String
  author : String
  createdAt : Nat
deriving DecidableEq, Repr

/-- The document built by `new Notification({...})` in the task and
comment routes (the store assigns id/read/createdAt on save). -/
structure Notif where
  user : String
  ntype : String
  message : String
  relatedTask : String
  relatedProject : String
deriving DecidableEq, Repr

/-- A persisted notification as read back by the notification routes. -/
structure StoredNotif where
  nid : String
  user : String
  ntype : String
  message : String
  read : Bool
  createdAt : Nat
deriving DecidableEq, Repr

/-- The durable store, in insertion (creation) order per collection. -/
structure Store where
  projects : List Project
  boards : List Board
  tasks : List Task
  comments : List Comment
  notifs : List StoredNotif
deriving DecidableEq, Repr

def findProject (s : Store) (i : String) : Option Project :=
  s.projects.find? (fun p => p.pid == i)

def findBoard (s : Store) (i : String) : Option Board :=
  s.boards.find? (fun b => b.bid == i)

def findTask (s : Store) (i : String) : Option Task :=
  s.tasks.find? (fun t => t.tid == i)

def findComment (s : Store) (i : String) : Option Comment :=
  s.comments.find? (fun c => c.cid == i)

def findNotif (s : Store) (i : String) : Option StoredNotif :=
  s.notifs.find? (fun n => n.nid == i)

/-- Outcome of a handler: 200/201 with a body, 404, 403, or 500. -/
inductive HRes (α : Type) where
  | ok (a : α)
  | notFound
  | forbidden
  | serverError
deriving DecidableEq, Repr

/-- The guard repeated in every board/task/comment route:
`project.owner.toString() !== req.user.id && !project.members.includes(req.user.id)`;
when true the route returns 403. -/
def accessDenied (p : Project) (caller : String) : Bool :=
  (p.owner != caller) && !(membersIncludesCaller p.members caller)

/-- Embeds `Model.find(...).sort({ createdAt: -1 })`: a stable sort by creation
time, descending. -/
def sortByCreatedDesc {α : Type} (key : α → Nat) (l : List α) : List α :=
  List.insertionSort (fun a b => key b ≤ key a) l

/-! ## Project routes (`src/backend/routes/projects.js`) -/

structure ProjectCreateBody where
  name : JVal
  description : JVal
  tags : JVal
deriving DecidableEq, Repr

/-- Handler `POST /api/projects`: builds the new project document.  `newId` is
the id the store assigns, `now` the creation timestamp.  `status` is
left to the schema default, which the handler never sets. -/
def createProject (caller : String) (body : ProjectCreateBody) (newId : String)
    (now : Nat) : Project :=
  { pid := newId, name := body.name, description := body.description,
    owner := caller, members := [{ user := caller, role := "owner" }],
    status := JVal.undef, tags := body.tags, createdAt := now }

/-- Handler `GET /api/projects`: `Project.find({$or: [{owner}, {'members.user'}]})`
— the dotted query matches the `user` field of each member record; no
`.sort()` clause, so documents come back in store (natural) order. -/
def getProjects (caller : String) (s : Store) : List Project :=
  s.projects.filter (fun p => p.owner == caller || p.members.any (fun m => m.user == caller))

/-- Handler `GET /api/projects/:id`: lookup, 404 when absent; no authorization
check of any kind on the caller. -/
def getProject (caller : String) (s : Store) (i : String) : HRes Project :=
  match findProject s i with
  | none => .notFound
  | some p => .ok p

structure ProjectUpdateBody where
  name : JVal
  description : JVal
  status : JVal
  tags : JVal
deriving DecidableEq, Repr

/-- The `findOneAndUpdate(_, { name, description, status, tags }, ...)`
update document: Mongoose strips keys whose value is `undefined`, so an
omitted field is not written; `null` is written. -/
def applyProjectUpdate (body : ProjectUpdateBody) (p : Project) : Project :=
  { p with
    name := setIfDefined body.name p.name,
    description := setIfDefined body.description p.description,
    status := setIfDefined body.status p.status,
    tags := setIfDefined body.tags p.tags }

/-- Handler `PUT /api/projects/:id`: `findOneAndUpdate({_id, owner: caller}, ...)`
— a missing project and a non-owner caller are indistinguishable (both
make the filter match nothing, hence 404). -/
def putProject (caller : String) (s : Store) (i : String)
    (body : ProjectUpdateBody) : HRes Project :=
  match findProject s i with
  | none => .notFound
  | some p => if p.owner != caller then .notFound else .ok (applyProjectUpdate body p)

/-! ## Board routes (`src/backend/routes/boards.js`) -/

/-- Handler `GET /api/boards/project/:projectId`: resolve project (404), check
access (403), then `Board.find({project}).sort({createdAt: -1})`. -/
def getBoardsForProject (caller : String) (s : Store) (projectId : String) :
    HRes (List Board) :=
  match findProject s projectId with
  | none => .notFound
  | some project =>
    if accessDenied project caller then .forbidden
    else .ok (sortByCreatedDesc Board.createdAt
      (s.boards.filter (fun b => b.project == projectId)))

/-- Handler `GET /api/boards/:id`: resolve board (404), populate its
project (a dangling ref throws on `.owner` → 500), access check (403),
return the board. -/
def getBoardById (caller : String) (s : Store) (i : String) : HRes Board :=
  match findBoard s i with
  | none => .notFound
  | some b =>
    match findProject s b.project with
    | none => .serverError
    | some project =>
      if accessDenied project caller then .forbidden else .ok b

structure BoardUpdateBody where
  name : JVal
  description : JVal
deriving DecidableEq, Repr

/-- Field patch of `PUT /api/boards/:id`:
`board.name = name || board.name; board.description = description || board.description`. -/
def applyBoardPatch (body : BoardUpdateBody) (b : Board) : Board :=
  { b with
    name := jsOr body.name b.name,
    description := jsOr body.description b.description }

/-- Handler `PUT /api/boards/:id`: resolve board (404), populate its project (a
dangling ref throws on `.owner` → 500), check access (403), patch. -/
def putBoard (caller : String) (s : Store) (i : String) (body : BoardUpdateBody) :
    HRes Board :=
  match findBoard s i with
  | none => .notFound
  | some b =>
    match findProject s b.project with
    | none => .serverError
    | some project =>
      if accessDenied project caller then .forbidden
      else .ok (applyBoardPatch body b)

/-- Handler `DELETE /api/boards/:id`: resolve (404), populate project, then
owner-only check: `project.owner.toString() !== req.user.id` → 403. -/
def deleteBoard (caller : String) (s : Store) (i : String) : HRes Unit :=
  match findBoard s i with
  | none => .notFound
  | some b =>
    match findProject s b.project with
    | none => .serverError
    | some project =>
      if project.owner != caller then .forbidden else .ok ()

/-! ## Task routes (`src/backend/routes/tasks.js`) -/

structure TaskCreateBody where
  title : JVal
  description : JVal
  priority : JVal
  status : JVal
  dueDate : JVal
  boardId : JVal
  projectId : String
  assignedTo : JVal
deriving DecidableEq, Repr

/-- Notification emission of `POST /api/tasks`:
`if (assignedTo && assignedTo.toString() !== req.user.id)` → one
`task_assigned` notification for the new assignee. -/
def taskCreateNotifs (caller : String) (body : TaskCreateBody) (newTaskId : String) :
    List Notif :=
  if body.assignedTo.truthy && (body.assignedTo.jsToString != caller) then
    [{ user := body.assignedTo.jsToString, ntype := "task_assigned",
       message := "You have been assigned to task: " ++ body.title.jsToString,
       relatedTask := newTaskId, relatedProject := body.projectId }]
  else []

/-- Handler `POST /api/tasks`: resolve project (404), access check (403),
optional board existence check (404), save the task, emit notification.
Returns the response and the notifications saved. -/
def postTask (caller : String) (s : Store) (body : TaskCreateBody)
    (newId : String) (now : Nat) : HRes Task × List Notif :=
  match findProject s body.projectId with
  | none => (.notFound, [])
  | some project =>
    if accessDenied project caller then (.forbidden, [])
    else if body.boardId.truthy && (findBoard s body.boardId.jsToString).isNone then
      (.notFound, [])
    else
      (.ok { tid := newId, title := body.title, description := body.description,
             priority := body.priority, status := body.status, dueDate := body.dueDate,
             board := body.boardId, project := body.projectId, createdBy := caller,
             assignedTo := body.assignedTo, createdAt := now },
       taskCreateNotifs caller body newId)

/-- Handler `GET /api/tasks/project/:projectId`: resolve project (404), access
check (403), `Task.find({project}).sort({createdAt: -1})`. -/
def getTasksForProject (caller : String) (s : Store) (projectId : String) :
    HRes (List Task) :=
  match findProject s projectId with
  | none => .notFound
  | some project =>
    if accessDenied project caller then .forbidden
    else .ok (sortByCreatedDesc Task.createdAt
      (s.tasks.filter (fun t => t.project == projectId)))

/-- Handler `GET /api/tasks/:id`: resolve task (404), populate its
project (dangling → 500 on `.owner`), access check (403), return the
task. -/
def getTaskById (caller : String) (s : Store) (i : String) : HRes Task :=
  match findTask s i with
  | none => .notFound
  | some t =>
    match findProject s t.project with
    | none => .serverError
    | some project =>
      if accessDenied project caller then .forbidden else .ok t

structure TaskUpdateBody where
  title : JVal
  description : JVal
  priority : JVal
  status : JVal
  dueDate : JVal
  assignedTo : JVal
deriving DecidableEq, Repr

/-- Notification emission of `PUT /api/tasks/:id` (runs on the task as
stored, before the patch):
`if (assignedTo && task.assignedTo && assignedTo.toString() !== task.assignedTo.toString())`
→ one `task_assigned` notification for the new assignee.  Note: the
caller is not consulted, and nothing fires when the task had no
previous assignee. -/
def taskUpdateNotifs (t : Task) (projectId : String) (body : TaskUpdateBody) :
    List Notif :=
  if body.assignedTo.truthy && t.assignedTo.truthy &&
      (body.assignedTo.jsToString != t.assignedTo.jsToString) then
    [{ user := body.assignedTo.jsToString, ntype := "task_assigned",
       message := "You have been assigned to task: " ++ t.title.jsToString,
       relatedTask := t.tid, relatedProject := projectId }]
  else []

/-- Field patch of `PUT /api/tasks/:id`: `title`, `priority`, `status`
use `x || prev`; `description`, `dueDate`, `assignedTo` use
`x !== undefined ? x : prev`. -/
def applyTaskPatch (body : TaskUpdateBody) (t : Task) : Task :=
  { t with
    title := jsOr body.title t.title,
    description := setIfDefined body.description t.description,
    priority := jsOr body.priority t.priority,
    status := jsOr body.status t.status,
    dueDate := setIfDefined body.dueDate t.dueDate,
    assignedTo := setIfDefined body.assignedTo t.assignedTo }

/-- Handler `PUT /api/tasks/:id`: resolve task (404), populate project (dangling
→ 500), access check (403), emit notification, patch and save. -/
def putTask (caller : String) (s : Store) (i : String) (body : TaskUpdateBody) :
    HRes Task × List Notif :=
  match findTask s i with
  | none => (.notFound, [])
  | some t =>
    match findProject s t.project with
    | none => (.serverError, [])
    | some project =>
      if accessDenied project caller then (.forbidden, [])
      else (.ok (applyTaskPatch body t), taskUpdateNotifs t project.pid body)

/-- Handler `DELETE /api/tasks/:id`: resolve (404), populate project, owner-only
check (`'Only project owner can delete tasks'`) → 403. -/
def deleteTask (caller : String) (s : Store) (i : String) : HRes Unit :=
  match findTask s i with
  | none => .notFound
  | some t =>
    match findProject s t.project with
    | none => .serverError
    | some project =>
      if project.owner != caller then .forbidden else .ok ()

/-! ## Comment routes (`src/backend/routes/comments.js`) -/

/-- Notification emission of `POST /api/comments`:
`if (task.assignedTo && task.assignedTo.toString() !== req.user.id)` →
one `comment_added` notification for the task's assignee. -/
def commentCreateNotifs (caller : String) (t : Task) (projectId : String) :
    List Notif :=
  if t.assignedTo.truthy && (t.assignedTo.jsToString != caller) then
    [{ user := t.assignedTo.jsToString, ntype := "comment_added",
       message := "New comment on task: " ++ t.title.jsToString,
       relatedTask := t.tid, relatedProject := projectId }]
  else []

/-- Handler `POST /api/comments`: resolve task with its project (task absent →
404; dangling project throws on `.owner` → 500), access check (403),
save comment, emit notification. -/
def postComment (caller : String) (s : Store) (content : JVal) (taskId : String)
    (newId : String) (now : Nat) : HRes Comment × List Notif :=
  match findTask s taskId with
  | none => (.notFound, [])
  | some t =>
    match findProject s t.project with
    | none => (.serverError, [])
    | some project =>
      if accessDenied project caller then (.forbidden, [])
      else
        (.ok { cid := newId, content := content, task := taskId,
               author := caller, createdAt := now },
         commentCreateNotifs caller t project.pid)

/-- Handler `GET /api/comments/task/:taskId`: resolve task (404), access check
(403), `Comment.find({task}).sort({createdAt: -1})`. -/
def getCommentsForTask (caller : String) (s : Store) (taskId : String) :
    HRes (List Comment) :=
  match findTask s taskId with
  | none => .notFound
  | some t =>
    match findProject s t.project with
    | none => (.serverError)
    | some project =>
      if accessDenied project caller then .forbidden
      else .ok (sortByCreatedDesc Comment.createdAt
        (s.comments.filter (fun c => c.task == taskId)))

/-- Handler `GET /api/comments/:id`: resolve comment (404), populate
`task` and `task.project` (dangling at either step → 500 on `.owner`),
access check (403), return the comment. -/
def getCommentById (caller : String) (s : Store) (i : String) : HRes Comment :=
  match findComment s i with
  | none => .notFound
  | some c =>
    match findTask s c.task with
    | none => .serverError
    | some t =>
      match findProject s t.project with
      | none => .serverError
      | some project =>
        if accessDenied project caller then .forbidden else .ok c

/-- Handler `PUT /api/comments/:id`: resolve (404), author-only check
(`'Only comment author can update it'`) → 403, then
`comment.content = content || comment.content`.  The populated
task/project are never read on this path. -/
def putComment (caller : String) (s : Store) (i : String) (content : JVal) :
    HRes Comment :=
  match findComment s i with
  | none => .notFound
  | some c =>
    if c.author != caller then .forbidden
    else .ok { c with content := jsOr content c.content }

/-- Handler `DELETE /api/comments/:id`: resolve (404), read
`comment.task.project` (either populate dangling → 500), then
author-or-project-owner check → 403. -/
def deleteComment (caller : String) (s : Store) (i : String) : HRes Unit :=
  match findComment s i with
  | none => .notFound
  | some c =>
    match findTask s c.task with
    | none => .serverError
    | some t =>
      match findProject s t.project with
      | none => .serverError
      | some project =>
        if (c.author != caller) && (project.owner != caller) then .forbidden
        else .ok ()

/-! ## Notification routes (`src/backend/routes/notifications.js`) -/

/-- Handler `GET /api/notifications`:
`Notification.find({user}).sort({createdAt: -1}).limit(50)`. -/
def getNotifications (caller : String) (s : Store) : List StoredNotif :=
  (sortByCreatedDesc StoredNotif.createdAt
    (s.notifs.filter (fun n => n.user == caller))).take 50

/-- Handler `GET /api/notifications/unread`: same filter plus `read: false`,
sorted, with no limit. -/
def getUnreadNotifications (caller : String) (s : Store) : List StoredNotif :=
  sortByCreatedDesc StoredNotif.createdAt
    (s.notifs.filter (fun n => n.user == caller && !n.read))

/-- Handler `PUT /api/notifications/:id/read`: resolve (404), recipient-only
check (403), set `read := true`. -/
def putNotificationRead (caller : String) (s : Store) (i : String) :
    HRes StoredNotif :=
  match findNotif s i with
  | none => .notFound
  | some n =>
    if n.user != caller then .forbidden
    else .ok { n with read := true }

/-! ## Realtime fan-out (`src/backend/server.js`) -/

/-- A connected Socket.IO client: its socket id and the rooms it has
joined via `join-project`. -/
structure Socket where
  sid : Nat
  rooms : List String
deriving DecidableEq, Repr

/-- Embeds `socket.on('join-project', pid => socket.join('project-' + pid))`. -/
def joinProject (sock : Socket) (projectId : String) : Socket :=
  { sock with rooms := ("project-" ++ projectId) :: sock.rooms }

/-- A published event payload: its `projectId` field plus the rest of
the (opaque, unvalidated) client-supplied data. -/
structure RtPayload where
  projectId : String
  rest : String
deriving DecidableEq, Repr

/-- Embeds `io.to(room).emit(event, data)`: delivers `(event, data)` to every
socket currently in `room` — `io.to` does not exclude the sender. -/
def emitToRoom (sockets : List Socket) (room : String) (event : String)
    (p : RtPayload) : List (Nat × String × RtPayload) :=
  (sockets.filter (fun sock => sock.rooms.contains room)).map
    (fun sock => (sock.sid, event, p))

/-- Embeds `socket.on('task-updated', data => io.to('project-' + data.projectId).emit('task-update', data))`.
`publisher` is the socket whose listener fired; the body never reads it
and performs no authorization check on it. -/
def onTaskUpdated (publisher : Socket) (sockets : List Socket) (p : RtPayload) :
    List (Nat × String × RtPayload) :=
  emitToRoom sockets ("project-" ++ p.projectId) "task-update" p

/-- Embeds `socket.on('comment-added', data => io.to('project-' + data.projectId).emit('new-comment', data))`. -/
def onCommentAdded (publisher : Socket) (sockets : List Socket) (p : RtPayload) :
    List (Nat × String × RtPayload) :=
  emitToRoom sockets ("project-" ++ p.projectId) "new-comment" p

/-! ## Concrete fixtures -/

/-- Project "p1": owned by "a", with "b" listed as a member. -/
def projAB : Project :=
  { pid := "p1", name := .str "Demo", description := .undef, owner := "a",
    members := [{ user := "a", role := "owner" }, { user := "b", role := "member" }],
    status := .undef, tags := .undef, createdAt := 0 }

/-- Task "t1" in project "p1", unassigned. -/
def taskAB : Task :=
  { tid := "t1", title := .str "T", description := .undef, priority := .undef,
    status := .undef, dueDate := .undef, board := .undef, project := "p1",
    createdBy := "a", assignedTo := .undef, createdAt := 0 }

def storeAB : Store :=
  { projects := [projAB], boards := [], tasks := [taskAB], comments := [], notifs := [] }

/-- A task-creation request by which "b" would add a task to "p1". -/
def taskBodyB : TaskCreateBody :=
  { title := .str "New", description := .undef, priority := .undef, status := .undef,
    dueDate := .undef, boardId := .undef, projectId := "p1", assignedTo := .undef }

/-- An update request assigning the task to "b", touching nothing else. -/
def updBodyAssignB : TaskUpdateBody :=
  { title := .undef, description := .undef, priority := .undef, status := .undef,
    dueDate := .undef, assignedTo := .str "b" }

def boardOld : Board :=
  { bid := "b1", name := .str "old", description := .str "d", project := "p1",
    createdBy := "a", createdAt := 0 }

/-- A board-update request that supplies `name` as the empty string. -/
def emptyNameBody : BoardUpdateBody := { name := .str "", description := .undef }

/-- A store holding just the one comment `c`. -/
def singleCommentStore (c : Comment) : Store :=
  { projects := [], boards := [], tasks := [], comments := [c], notifs := [] }

def sockPub : Socket := { sid := 1, rooms := ["project-p1"] }
def sockOther : Socket := { sid := 2, rooms := ["project-p1"] }
def payload1 : RtPayload := { projectId := "p1", rest := "x" }

/-- The invariant: the project's owner appears in its member list with
role "owner". -/
def ownerListedAsOwner (p : Project) : Prop :=
  ({ user := p.owner, role := "owner" } : Member) ∈ p.members

/-- Update body setting the project name to "N" and nothing else. -/
def ubNameN : ProjectUpdateBody :=
  { name := JVal.str "N", description := JVal.undef, status := JVal.undef,
    tags := JVal.undef }

def projEarly : Project :=
  { pid := "q1", name := .str "P1", description := .undef, owner := "a",
    members := [{ user := "a", role := "owner" }], status := .undef, tags := .undef,
    createdAt := 1 }

def projLate : Project := { projEarly with pid := "q2", createdAt := 2 }

def storeTwoProjects : Store :=
  { projects := [projEarly, projLate], boards := [], tasks := [], comments := [],
    notifs := [] }

/-! ## Helper lemmas -/

/-- The membership half of the access guard can never fire: the JS
`includes` compares the caller's id string with `{user, role}`
subdocuments, values of different runtime shapes, so it is `false` on
every member list. -/
theorem membersIncludesCaller_false (ms : List Member) (c : String) :
    membersIncludesCaller ms c = false := by
  induction ms with
  | nil => rfl
  | cons m rest ih =>
      simp only [membersIncludesCaller, List.map, List.contains] at ih ⊢
      simpa using ih

/-- Consequently the guard reduces to an owner-only check. -/
theorem accessDenied_iff (p : Project) (caller : String) :
    accessDenied p caller = true ↔ p.owner ≠ caller := by
  simp [accessDenied, membersIncludesCaller_false]

theorem jsOr_idem (a b : JVal) : jsOr a (jsOr a b) = jsOr a b := by
  unfold jsOr
  by_cases h : a.truthy = true <;> simp [h]

theorem setIfDefined_idem (a b : JVal) :
    setIfDefined a (setIfDefined a b) = setIfDefined a b := by
  unfold setIfDefined
  by_cases h : a == JVal.undef <;> simp_all

/-! ## C1 — membership authorization -/

/-- C1: the claim says every sub-resource handler authorizes exactly the
project owner and the listed members.  User "b" is listed in project
"p1"'s members, yet each cited handler (GET /api/boards/project/:id,
POST /api/tasks, POST /api/comments) returns 403 Forbidden for "b":
`project.members.includes(req.user.id)` compares the caller's id string
against `{user, role}` member subdocuments and never matches, so only
the owner passes the check, contradicting the code's own comment
"Check if user is project owner or member". -/
theorem c1_listed_member_still_forbidden :
    (∃ m ∈ projAB.members, m.user = "b") ∧
    getBoardsForProject "b" storeAB "p1" = .forbidden ∧
    (postTask "b" storeAB taskBodyB "t9" 5).1 = .forbidden ∧
    (postComment "b" storeAB (.str "hi") "t1" "c9" 5).1 = .forbidden := by
  decide

/-! ## C2 — notification emission -/

/-- C2 counterexample: caller "a" updates the previously unassigned task
"t1" with `assignedTo = "b"` — a value different from both the caller
and the (absent) previous assignee, so the claim requires exactly one
`task_assigned` Notification; the handler creates none, because the
emission condition `assignedTo && task.assignedTo && ...` also requires
a previous assignee. -/
theorem c2_unassigned_task_counterexample :
    (updBodyAssignB.assignedTo.truthy = true ∧
     updBodyAssignB.assignedTo.jsToString ≠ "a" ∧
     taskAB.assignedTo.truthy = false) ∧
    (putTask "a" storeAB "t1" updBodyAssignB).1 ≠ .notFound ∧
    (putTask "a" storeAB "t1" updBodyAssignB).2 = [] := by
  decide

/-- C2 amended: creation emits one `task_assigned` notification iff the
request supplies a truthy `assignedTo` different from the caller; an
update emits one iff both the new `assignedTo` and the task's previous
assignee are set and differ from each other — the caller is not
consulted (self-assignment still notifies) and first assignment of an
unassigned task does not notify; comment creation emits one
`comment_added` notification iff the task's assignee is set and differs
from the comment author.  No other input makes these handlers create a
Notification, and each trigger creates exactly one, addressed to the
assignee. -/
theorem c2_notification_trigger_characterization
    (caller : String) (cb : TaskCreateBody) (newId : String)
    (t : Task) (pid : String) (ub : TaskUpdateBody) :
    ((taskCreateNotifs caller cb newId).length = 1 ↔
      cb.assignedTo.truthy = true ∧ cb.assignedTo.jsToString ≠ caller) ∧
    ((taskCreateNotifs caller cb newId).length = 1 ∨ taskCreateNotifs caller cb newId = []) ∧
    (∀ n ∈ taskCreateNotifs caller cb newId,
      n.user = cb.assignedTo.jsToString ∧ n.ntype = "task_assigned") ∧
    ((taskUpdateNotifs t pid ub).length = 1 ↔
      ub.assignedTo.truthy = true ∧ t.assignedTo.truthy = true ∧
        ub.assignedTo.jsToString ≠ t.assignedTo.jsToString) ∧
    ((taskUpdateNotifs t pid ub).length = 1 ∨ taskUpdateNotifs t pid ub = []) ∧
    (∀ n ∈ taskUpdateNotifs t pid ub,
      n.user = ub.assignedTo.jsToString ∧ n.ntype = "task_assigned") ∧
    ((commentCreateNotifs caller t pid).length = 1 ↔
      t.assignedTo.truthy = true ∧ t.assignedTo.jsToString ≠ caller) ∧
    ((commentCreateNotifs caller t pid).length = 1 ∨ commentCreateNotifs caller t pid = []) ∧
    (∀ n ∈ commentCreateNotifs caller t pid,
      n.user = t.assignedTo.jsToString ∧ n.ntype = "comment_added") := by
  unfold taskCreateNotifs taskUpdateNotifs commentCreateNotifs
  refine ⟨?_, ?_, ?_, ?_, ?_, ?_, ?_, ?_, ?_⟩ <;> split <;>
    simp_all [List.length, bne_iff_ne]

/-! ## C3 — partial-update overwrite semantics -/

/-- C3 counterexample: the payload supplies `name` (it is not absent),
so the claim requires the stored name to be overwritten with `""`; the
patch `board.name = name || board.name` treats the falsy `""` like an
omission and keeps `"old"`. -/
theorem c3_supplied_empty_not_overwritten :
    emptyNameBody.name ≠ JVal.undef ∧
    (applyBoardPatch emptyNameBody boardOld).name = JVal.str "old" ∧
    (applyBoardPatch emptyNameBody boardOld).name ≠ emptyNameBody.name := by
  decide

/-- C3 amended: omitted fields always leave the stored value unchanged;
fields patched with the `!== undefined` idiom (task `description`,
`dueDate`, `assignedTo`) are overwritten by any supplied value,
including explicit null/empty; fields patched with JS `||` (task
`title`, `priority`, `status`; board `name`, `description`; comment
`content`) are overwritten only by a truthy (nonempty, non-null) value —
a supplied falsy value leaves the stored value unchanged. -/
theorem c3_patch_field_semantics
    (tb : TaskUpdateBody) (t : Task) (bb : BoardUpdateBody) (b : Board)
    (content : JVal) (c : Comment) :
    (tb.title = JVal.undef → (applyTaskPatch tb t).title = t.title) ∧
    (tb.description = JVal.undef → (applyTaskPatch tb t).description = t.description) ∧
    (tb.priority = JVal.undef → (applyTaskPatch tb t).priority = t.priority) ∧
    (tb.status = JVal.undef → (applyTaskPatch tb t).status = t.status) ∧
    (tb.dueDate = JVal.undef → (applyTaskPatch tb t).dueDate = t.dueDate) ∧
    (tb.assignedTo = JVal.undef → (applyTaskPatch tb t).assignedTo = t.assignedTo) ∧
    (tb.description ≠ JVal.undef → (applyTaskPatch tb t).description = tb.description) ∧
    (tb.dueDate ≠ JVal.undef → (applyTaskPatch tb t).dueDate = tb.dueDate) ∧
    (tb.assignedTo ≠ JVal.undef → (applyTaskPatch tb t).assignedTo = tb.assignedTo) ∧
    (tb.title.truthy = true → (applyTaskPatch tb t).title = tb.title) ∧
    (tb.title.truthy = false → (applyTaskPatch tb t).title = t.title) ∧
    (tb.priority.truthy = true → (applyTaskPatch tb t).priority = tb.priority) ∧
    (tb.priority.truthy = false → (applyTaskPatch tb t).priority = t.priority) ∧
    (tb.status.truthy = true → (applyTaskPatch tb t).status = tb.status) ∧
    (tb.status.truthy = false → (applyTaskPatch tb t).status = t.status) ∧
    (bb.name.truthy = true → (applyBoardPatch bb b).name = bb.name) ∧
    (bb.name.truthy = false → (applyBoardPatch bb b).name = b.name) ∧
    (bb.description.truthy = true → (applyBoardPatch bb b).description = bb.description) ∧
    (bb.description.truthy = false → (applyBoardPatch bb b).description = b.description) ∧
    (content.truthy = true →
      putComment c.author (singleCommentStore c) c.cid content =
        .ok { c with content := content }) ∧
    (content.truthy = false →
      putComment c.author (singleCommentStore c) c.cid content = .ok c) := by
  refine ⟨?_, ?_, ?_, ?_, ?_, ?_, ?_, ?_, ?_, ?_, ?_, ?_, ?_, ?_, ?_, ?_, ?_, ?_, ?_,
    ?_, ?_⟩ <;>
    intros <;>
    simp_all [applyTaskPatch, applyBoardPatch, putComment, findComment, singleCommentStore,
      jsOr, setIfDefined, JVal.truthy]

/-- Closed instance of `c3_patch_field_semantics`, discharging the
hypotheses at concrete inputs: a null description overwrites, and an
omitted title is left unchanged. -/
theorem c3_patch_field_semantics_witness :
    (applyTaskPatch { updBodyAssignB with description := JVal.nullv } taskAB).description =
      JVal.nullv ∧
    (applyTaskPatch updBodyAssignB taskAB).title = taskAB.title := by
  refine ⟨?_, ?_⟩
  · exact (c3_patch_field_semantics _ taskAB emptyNameBody boardOld JVal.undef
      { cid := "c", content := .undef, task := "t", author := "u", createdAt := 0 }).2.2.2.2.2.2.1
      (by decide)
  · exact (c3_patch_field_semantics updBodyAssignB taskAB emptyNameBody boardOld JVal.undef
      { cid := "c", content := .undef, task := "t", author := "u", createdAt := 0 }).1
      (by decide)

/-! ## C4 — realtime fan-out -/

/-- C4 counterexample: the publisher (socket 1, subscribed to
`project-p1`) is itself among the recipients of its own `task-updated`
publish — `io.to(room).emit(...)` does not exclude the sender, so the
claim's "the publisher does not [receive it]" fails. -/
theorem c4_publisher_receives_own_event :
    (sockPub.sid, "task-update", payload1) ∈
      onTaskUpdated sockPub [sockPub, sockOther] payload1 := by
  decide

/-- C4 amended: a `task-updated` (resp. `comment-added`) publish whose
payload carries `projectId` is rebroadcast verbatim, under the event
name `task-update` (resp. `new-comment`), to exactly the sockets
currently joined to that project's room — including the publisher
itself when it is joined — and the recipient set does not depend on the
publisher at all (no server-side authorization check). -/
theorem c4_fanout_characterization (publisher q : Socket) (sockets : List Socket)
    (p : RtPayload) (i : Nat) (ev : String) (d : RtPayload) :
    ((i, ev, d) ∈ onTaskUpdated publisher sockets p ↔
      ev = "task-update" ∧ d = p ∧
      ∃ sock ∈ sockets, sock.sid = i ∧ sock.rooms.contains ("project-" ++ p.projectId) = true) ∧
    ((i, ev, d) ∈ onCommentAdded publisher sockets p ↔
      ev = "new-comment" ∧ d = p ∧
      ∃ sock ∈ sockets, sock.sid = i ∧ sock.rooms.contains ("project-" ++ p.projectId) = true) ∧
    onTaskUpdated publisher sockets p = onTaskUpdated q sockets p ∧
    onCommentAdded publisher sockets p = onCommentAdded q sockets p := by
  unfold onTaskUpdated onCommentAdded emitToRoom
  refine ⟨?_, ?_, rfl, rfl⟩ <;>
    · simp only [List.mem_map, List.mem_filter, Prod.mk.injEq]
      constructor
      · rintro ⟨sock, ⟨hmem, hroom⟩, hsid, hev, hd⟩
        exact ⟨hev.symm, hd.symm, sock, hmem, hsid, hroom⟩
      · rintro ⟨hev, hd, sock, hmem, hsid, hroom⟩
        exact ⟨sock, ⟨hmem, hroom⟩, hsid, hev.symm, hd.symm⟩

/-! ## C5 — resolve-then-authorize ordering -/

/-- C5: for every id-addressed task, board, comment and notification
handler (GET, PUT, DELETE), a missing entity yields NotFound and
nothing else does; Forbidden arises exactly for an existing entity
whose caller fails that handler's authorization predicate (with the
parent references resolvable) — the two error kinds are distinct,
not-found is decided first, a missing entity never yields 403 and an
existing entity with an unauthorized caller never yields 404. -/
theorem c5_notfound_before_forbidden (caller : String) (s : Store) (i : String)
    (tb : TaskUpdateBody) (bb : BoardUpdateBody) (content : JVal) :
    ((putTask caller s i tb).1 = .notFound ↔ findTask s i = none) ∧
    ((putTask caller s i tb).1 = .forbidden →
      ∃ t p, findTask s i = some t ∧ findProject s t.project = some p ∧
        accessDenied p caller = true) ∧
    (∀ t p, findTask s i = some t → findProject s t.project = some p →
      accessDenied p caller = true → (putTask caller s i tb).1 = .forbidden) ∧
    (putBoard caller s i bb = .notFound ↔ findBoard s i = none) ∧
    (putBoard caller s i bb = .forbidden →
      ∃ b p, findBoard s i = some b ∧ findProject s b.project = some p ∧
        accessDenied p caller = true) ∧
    (∀ b p, findBoard s i = some b → findProject s b.project = some p →
      accessDenied p caller = true → putBoard caller s i bb = .forbidden) ∧
    (putNotificationRead caller s i = .notFound ↔ findNotif s i = none) ∧
    (putNotificationRead caller s i = .forbidden ↔
      ∃ n, findNotif s i = some n ∧ n.user ≠ caller) ∧
    (putComment caller s i content = .notFound ↔ findComment s i = none) ∧
    (putComment caller s i content = .forbidden ↔
      ∃ c, findComment s i = some c ∧ c.author ≠ caller) ∧
    (getTaskById caller s i = .notFound ↔ findTask s i = none) ∧
    (getTaskById caller s i = .forbidden ↔
      ∃ t p, findTask s i = some t ∧ findProject s t.project = some p ∧
        accessDenied p caller = true) ∧
    (getBoardById caller s i = .notFound ↔ findBoard s i = none) ∧
    (getBoardById caller s i = .forbidden ↔
      ∃ b p, findBoard s i = some b ∧ findProject s b.project = some p ∧
        accessDenied p caller = true) ∧
    (getCommentById caller s i = .notFound ↔ findComment s i = none) ∧
    (getCommentById caller s i = .forbidden ↔
      ∃ c t p, findComment s i = some c ∧ findTask s c.task = some t ∧
        findProject s t.project = some p ∧ accessDenied p caller = true) ∧
    (deleteTask caller s i = .notFound ↔ findTask s i = none) ∧
    (deleteTask caller s i = .forbidden ↔
      ∃ t p, findTask s i = some t ∧ findProject s t.project = some p ∧
        p.owner ≠ caller) ∧
    (deleteBoard caller s i = .notFound ↔ findBoard s i = none) ∧
    (deleteBoard caller s i = .forbidden ↔
      ∃ b p, findBoard s i = some b ∧ findProject s b.project = some p ∧
        p.owner ≠ caller) ∧
    (deleteComment caller s i = .notFound ↔ findComment s i = none) ∧
    (deleteComment caller s i = .forbidden ↔
      ∃ c t p, findComment s i = some c ∧ findTask s c.task = some t ∧
        findProject s t.project = some p ∧ c.author ≠ caller ∧ p.owner ≠ caller) := by
  unfold putTask putBoard putNotificationRead putComment getTaskById getBoardById
    getCommentById deleteTask deleteBoard deleteComment
  refine ⟨?_, ?_, ?_, ?_, ?_, ?_, ?_, ?_, ?_, ?_, ?_, ?_, ?_, ?_, ?_, ?_, ?_, ?_,
    ?_, ?_, ?_, ?_⟩ <;>
    (repeat' split) <;> intros <;> simp_all [bne_iff_ne]

/-- Closed instance of `c5_notfound_before_forbidden`: in a store whose
task "t1" exists inside project "p1" owned by "a", the non-member
caller "z" gets 403 from PUT /api/tasks/t1, and an unknown board id
gets 404 from PUT /api/boards/nope. -/
theorem c5_notfound_before_forbidden_witness :
    (putTask "z" storeAB "t1" updBodyAssignB).1 = HRes.forbidden ∧
    putBoard "z" storeAB "nope" emptyNameBody = HRes.notFound := by
  constructor
  · exact (c5_notfound_before_forbidden "z" storeAB "t1" updBodyAssignB emptyNameBody
      JVal.undef).2.2.1 taskAB projAB (by decide) (by decide) (by decide)
  · exact (c5_notfound_before_forbidden "z" storeAB "nope" updBodyAssignB emptyNameBody
      JVal.undef).2.2.2.1.mpr (by decide)

/-! ## C6 — delete/modify permissions -/

/-- C6: with the addressed entity and its parent references resolved,
DELETE task and DELETE board succeed exactly for the owning project's
owner and return 403 for every other caller (members included);
PUT comment succeeds exactly for the comment's author; DELETE comment
succeeds exactly for the author or the project owner, 403 otherwise. -/
theorem c6_delete_modify_permissions (caller : String) (s : Store) (i : String)
    (content : JVal) :
    (∀ t p, findTask s i = some t → findProject s t.project = some p →
      (deleteTask caller s i = .ok () ↔ p.owner = caller)) ∧
    (∀ t p, findTask s i = some t → findProject s t.project = some p →
      p.owner ≠ caller → deleteTask caller s i = .forbidden) ∧
    (∀ b p, findBoard s i = some b → findProject s b.project = some p →
      (deleteBoard caller s i = .ok () ↔ p.owner = caller)) ∧
    (∀ b p, findBoard s i = some b → findProject s b.project = some p →
      p.owner ≠ caller → deleteBoard caller s i = .forbidden) ∧
    (∀ c, findComment s i = some c →
      ((∃ c2, putComment caller s i content = .ok c2) ↔ c.author = caller)) ∧
    (∀ c, findComment s i = some c → c.author ≠ caller →
      putComment caller s i content = .forbidden) ∧
    (∀ c t p, findComment s i = some c → findTask s c.task = some t →
      findProject s t.project = some p →
      (deleteComment caller s i = .ok () ↔ (c.author = caller ∨ p.owner = caller))) ∧
    (∀ c t p, findComment s i = some c → findTask s c.task = some t →
      findProject s t.project = some p → c.author ≠ caller → p.owner ≠ caller →
      deleteComment caller s i = .forbidden) := by
  unfold deleteTask deleteBoard putComment deleteComment
  refine ⟨?_, ?_, ?_, ?_, ?_, ?_, ?_, ?_⟩ <;> intros <;> (repeat' split) <;>
    simp_all [bne_iff_ne] <;> tauto

/-- Closed instance of `c6_delete_modify_permissions`: in `storeAB`,
the member "b" (not the owner) cannot delete task "t1" (403), while the
owner "a" can. -/
theorem c6_delete_modify_permissions_witness :
    deleteTask "b" storeAB "t1" = HRes.forbidden ∧
    deleteTask "a" storeAB "t1" = HRes.ok () := by
  constructor
  · exact (c6_delete_modify_permissions "b" storeAB "t1" JVal.undef).2.1 taskAB projAB
      (by decide) (by decide) (by decide)
  · exact ((c6_delete_modify_permissions "a" storeAB "t1" JVal.undef).1 taskAB projAB
      (by decide) (by decide)).mpr (by decide)

/-! ## C7 — owner is a member with role "owner" -/

/-- C7: creating a project as `caller` yields owner = caller and member
list exactly `[{user: caller, role: "owner"}]`; the project update
handler touches only name/description/status/tags, so it preserves
owner and members and therefore the invariant, on every project it can
produce. -/
theorem c7_owner_member_invariant (caller : String) (body : ProjectCreateBody)
    (newId : String) (now : Nat) (ub : ProjectUpdateBody) (p : Project)
    (s : Store) (i : String) :
    (createProject caller body newId now).owner = caller ∧
    (createProject caller body newId now).members =
      [{ user := caller, role := "owner" }] ∧
    ownerListedAsOwner (createProject caller body newId now) ∧
    (applyProjectUpdate ub p).owner = p.owner ∧
    (applyProjectUpdate ub p).members = p.members ∧
    (ownerListedAsOwner p → ownerListedAsOwner (applyProjectUpdate ub p)) ∧
    (∀ q, putProject caller s i ub = .ok q →
      ∃ p0, findProject s i = some p0 ∧ q.owner = p0.owner ∧ q.members = p0.members ∧
        (ownerListedAsOwner p0 → ownerListedAsOwner q)) := by
  refine ⟨rfl, rfl, ?_, rfl, rfl, ?_, ?_⟩
  · simp [ownerListedAsOwner, createProject]
  · intro h
    simpa [ownerListedAsOwner, applyProjectUpdate] using h
  · intro q h
    unfold putProject at h
    rcases hf : findProject s i with _ | p0
    · rw [hf] at h
      cases h
    · rw [hf] at h
      by_cases ho : p0.owner = caller
      · simp only [ho, bne_self_eq_false, Bool.false_eq_true, if_false, HRes.ok.injEq] at h
        subst h
        refine ⟨p0, rfl, rfl, rfl, fun hm => ?_⟩
        simpa [ownerListedAsOwner, applyProjectUpdate] using hm
      · simp [bne_iff_ne, ho] at h

/-- Closed instance of `c7_owner_member_invariant`: updating `projAB`
keeps its owner listed as a member with role "owner". -/
theorem c7_owner_member_invariant_witness :
    ownerListedAsOwner (applyProjectUpdate ubNameN projAB) :=
  (c7_owner_member_invariant "a" ⟨JVal.undef, JVal.undef, JVal.undef⟩ "p" 0
      ubNameN projAB storeAB "p1").2.2.2.2.2.1 (by unfold ownerListedAsOwner; decide)

/-! ## C8 — list ordering and the notification cap -/

theorem sortByCreatedDesc_sorted {α : Type} (key : α → Nat) (l : List α) :
    List.Sorted (fun a b => key b ≤ key a) (sortByCreatedDesc key l) := by
  haveI : IsTrans α (fun a b => key b ≤ key a) :=
    ⟨fun _ _ _ hab hbc => le_trans hbc hab⟩
  haveI : IsTotal α (fun a b => key b ≤ key a) :=
    ⟨fun a b => le_total (key b) (key a)⟩
  exact List.sorted_insertionSort _ _

theorem sortByCreatedDesc_perm {α : Type} (key : α → Nat) (l : List α) :
    (sortByCreatedDesc key l).Perm l :=
  List.perm_insertionSort _ _

/-- C8 counterexample: GET /api/projects is a list handler (scope: the
caller's projects) but applies no sort; with two matching projects
created at times 1 and 2 it returns them in store order, ascending —
not ordered by creation time descending as the claim requires of every
list handler. -/
theorem c8_projects_list_unsorted :
    getProjects "a" storeTwoProjects = [projEarly, projLate] ∧
    projEarly.createdAt < projLate.createdAt ∧
    ¬ List.Sorted (fun p q => Project.createdAt q ≤ Project.createdAt p)
        (getProjects "a" storeTwoProjects) := by
  refine ⟨rfl, by decide, ?_⟩
  intro h
  rw [show getProjects "a" storeTwoProjects = [projEarly, projLate] from rfl] at h
  have h12 := List.rel_of_sorted_cons h projLate (by simp)
  exact absurd h12 (by decide)

/-- C8 amended: the board, task, comment and notification list handlers
return the entities matching their scope filter ordered by creation
time descending, and of them only GET /api/notifications truncates —
to at most 50, which are the caller's most recent ones; the project
list handler, however, applies no ordering (it returns matches in
store order, see the counterexample). -/
theorem c8_list_ordering (caller : String) (s : Store) (pid tid : String) :
    (∀ l, getBoardsForProject caller s pid = .ok l →
      List.Sorted (fun a b => Board.createdAt b ≤ Board.createdAt a) l ∧
      l.Perm (s.boards.filter (fun b => b.project == pid))) ∧
    (∀ l, getTasksForProject caller s pid = .ok l →
      List.Sorted (fun a b => Task.createdAt b ≤ Task.createdAt a) l ∧
      l.Perm (s.tasks.filter (fun t => t.project == pid))) ∧
    (∀ l, getCommentsForTask caller s tid = .ok l →
      List.Sorted (fun a b => Comment.createdAt b ≤ Comment.createdAt a) l ∧
      l.Perm (s.comments.filter (fun c => c.task == tid))) ∧
    List.Sorted (fun a b => StoredNotif.createdAt b ≤ StoredNotif.createdAt a)
      (getNotifications caller s) ∧
    (getNotifications caller s).length ≤ 50 ∧
    (∀ n ∈ getNotifications caller s, n.user = caller ∧ n ∈ s.notifs) ∧
    (∀ n ∈ getNotifications caller s, ∀ m ∈ s.notifs, m.user = caller →
      m ∉ getNotifications caller s → m.createdAt ≤ n.createdAt) := by
  refine ⟨?_, ?_, ?_, ?_, ?_, ?_, ?_⟩
  · intro l
    unfold getBoardsForProject
    (repeat' split) <;> intro h <;> cases h <;>
      exact ⟨sortByCreatedDesc_sorted _ _, sortByCreatedDesc_perm _ _⟩
  · intro l
    unfold getTasksForProject
    (repeat' split) <;> intro h <;> cases h <;>
      exact ⟨sortByCreatedDesc_sorted _ _, sortByCreatedDesc_perm _ _⟩
  · intro l
    unfold getCommentsForTask
    (repeat' split) <;> intro h <;> cases h <;>
      exact ⟨sortByCreatedDesc_sorted _ _, sortByCreatedDesc_perm _ _⟩
  · exact List.Pairwise.sublist (List.take_sublist _ _) (sortByCreatedDesc_sorted _ _)
  · exact List.length_take_le _ _
  · intro n hn
    have hn2 : n ∈ s.notifs.filter (fun x => x.user == caller) :=
      (sortByCreatedDesc_perm StoredNotif.createdAt _).mem_iff.mp
        (List.mem_of_mem_take hn)
    rcases List.mem_filter.mp hn2 with ⟨hmem, hbeq⟩
    exact ⟨eq_of_beq hbeq, hmem⟩
  · intro n hn m hm hmu hmout
    have hmf : m ∈ s.notifs.filter (fun x => x.user == caller) :=
      List.mem_filter.mpr ⟨hm, by simp [hmu]⟩
    have hmL : m ∈ sortByCreatedDesc StoredNotif.createdAt
        (s.notifs.filter (fun x => x.user == caller)) :=
      (sortByCreatedDesc_perm StoredNotif.createdAt _).mem_iff.mpr hmf
    rw [← List.take_append_drop 50 (sortByCreatedDesc StoredNotif.createdAt
      (s.notifs.filter (fun x => x.user == caller)))] at hmL
    rcases List.mem_append.mp hmL with hmtake | hmdrop
    · exact absurd hmtake hmout
    · have hs := sortByCreatedDesc_sorted StoredNotif.createdAt
        (s.notifs.filter (fun x => x.user == caller))
      rw [← List.take_append_drop 50 (sortByCreatedDesc StoredNotif.createdAt
        (s.notifs.filter (fun x => x.user == caller)))] at hs
      exact (List.pairwise_append.mp hs).2.2 n hn m hmdrop

/-- Closed instance of `c8_list_ordering`: the owner "a" listing the
boards of "p1" in `storeAB` gets the (empty) sorted filter result. -/
theorem c8_list_ordering_witness :
    List.Sorted (fun a b => Board.createdAt b ≤ Board.createdAt a) ([] : List Board) ∧
    ([] : List Board).Perm (storeAB.boards.filter (fun b => b.project == "p1")) :=
  (c8_list_ordering "a" storeAB "p1" "t1").1 [] (by decide)

/-! ## C9 — idempotence of the field patch -/

/-- C9: the field-patching step of PUT /api/tasks/:id and
PUT /api/boards/:id is idempotent — patching an already-patched entity
with the same payload changes nothing, for every payload, including
falsy and explicit-null field values. -/
theorem c9_patch_idempotent (tb : TaskUpdateBody) (t : Task)
    (bb : BoardUpdateBody) (b : Board) :
    applyTaskPatch tb (applyTaskPatch tb t) = applyTaskPatch tb t ∧
    applyBoardPatch bb (applyBoardPatch bb b) = applyBoardPatch bb b := by
  constructor <;>
    simp [applyTaskPatch, applyBoardPatch, jsOr_idem, setIfDefined_idem]

/-! ## C10 — unauthorized project read -/

/-- C10: GET /api/projects/:id performs no authorization check — for
every caller, an existing project is returned with 200 regardless of
ownership or membership (contrast `accessDenied`, which guards every
board/task/comment read), and 404 only when the id resolves to
nothing. -/
theorem c10_get_project_no_authz_check (caller : String) (s : Store) (i : String) :
    (∀ p, findProject s i = some p → getProject caller s i = .ok p) ∧
    (findProject s i = none → getProject caller s i = .notFound) := by
  unfold getProject
  constructor
  · intro p hp; rw [hp]
  · intro hp; rw [hp]

/-- Closed instance of `c10_get_project_no_authz_check`: the stranger
"z" — whom `accessDenied` rejects on every sub-resource route of
project "p1" — still reads the project itself. -/
theorem c10_get_project_no_authz_check_witness :
    getProject "z" storeAB "p1" = HRes.ok projAB ∧ accessDenied projAB "z" = true := by
  constructor
  · exact (c10_get_project_no_authz_check "z" storeAB "p1").1 projAB (by decide)
  · decide

end CollabFlow
